import Mathlib

/-!
# Verification of the tracker identity-resolution and plugin pipeline

Shallow embedding of the core of `uv_app` (face-identity resolution engine,
plugin scheduler/executor, result aggregator) together with proofs about the
spec's claims.

Modelling conventions, used throughout:

* Python floats are idealised as exact rationals (`ℚ`).
* Euclidean distances are represented by their *squares*: every comparison in
  the source is of the form `dist < t`, `dist <= t` or `dist * c < dist' * c'`
  with all quantities non-negative, so squaring both sides is an
  order-isomorphic change of representation.  Accordingly the constants
  `0.5` (match threshold), `0.2` (duplicate epsilon), `0.95` and `1.05`
  (reliability factors) appear squared: `1/4`, `1/25`, `361/400 = (95/100)^2`
  and `441/400 = (105/100)^2`.
* `float("inf")` becomes `⊤ : WithTop ℚ`.
* Images, bounding boxes and pose payloads are opaque tokens (`ℕ`): the code
  never inspects them, it only stores and forwards them.
* Disk I/O (`save_data`, `load_data`, `save_face_image`) is absent: we model a
  cold start, where `TrackedPerson.load_data` finds no persisted files.
* Python object identity is modelled through the unique `track_id` carried by
  every person; the resolution engine never creates two people with the same
  id (ids come from the monotone `next_id` counter).
* Python `dict`s become association lists whose insert overwrites in place
  (preserving insertion order), mirroring CPython semantics.
-/

namespace Tracker

/-! ## Vector arithmetic (numpy fragment used by the source) -/

/-- Squared Euclidean distance between two vectors, i.e. the square of
`np.linalg.norm(a - b)` as used in `recognition.py` and `person.py`. -/
def dist2 (a b : List ℚ) : ℚ :=
  (List.zipWith (fun x y => (x - y) ^ 2) a b).sum

/-- Componentwise sum of a list of vectors (the summation inside
`np.mean(..., axis=0)`). -/
def vecSum : List (List ℚ) → List ℚ
  | [] => []
  | [v] => v
  | v :: vs => List.zipWith (· + ·) v (vecSum vs)

/-- `np.mean(encodings, axis=0)`: componentwise arithmetic mean. -/
def vecMean (l : List (List ℚ)) : List ℚ :=
  (vecSum l).map (fun x => x / (l.length : ℚ))

theorem dist2_self (v : List ℚ) : dist2 v v = 0 := by
  induction v with
  | nil => rfl
  | cons x xs ih =>
      have h : dist2 (x :: xs) (x :: xs) = (x - x) ^ 2 + dist2 xs xs := by
        simp [dist2]
      rw [h, ih]; ring

theorem dist2_comm (a b : List ℚ) : dist2 a b = dist2 b a := by
  induction a generalizing b with
  | nil => cases b <;> rfl
  | cons x xs ih =>
      cases b with
      | nil => rfl
      | cons y ys =>
          have h1 : dist2 (x :: xs) (y :: ys) = (x - y) ^ 2 + dist2 xs ys := by
            simp [dist2]
          have h2 : dist2 (y :: ys) (x :: xs) = (y - x) ^ 2 + dist2 ys xs := by
            simp [dist2]
          rw [h1, h2, ih ys]; ring

theorem vecMean_singleton (v : List ℚ) : vecMean [v] = v := by
  simp [vecMean, vecSum]

/-! ## Configuration constants (`uv_app/config.py`) -/

/-- `MATCH_THRESHOLD = 0.5` (config.py line 11), squared. -/
def MATCH_THRESHOLD2 : ℚ := 1/4

/-- `MIN_FRAMES_TO_CONFIRM = 5` (config.py line 10). -/
def MIN_FRAMES_TO_CONFIRM : ℕ := 5

/-- `MAX_FACE_IMAGES = 50` (config.py line 9). -/
def MAX_FACE_IMAGES : ℕ := 50

/-- The duplicate-suppression threshold `0.2` hard-coded in
`TrackedPerson.add_face_data` (person.py line 102), squared. -/
def DUPLICATE_EPS2 : ℚ := 1/25

/-! ## `TrackedPerson` (`uv_app/core/person.py`) -/

/-- The fields of `TrackedPerson` that the resolution engine reads or writes.
The transient `current_*` payloads are not tracked individually (they are
opaque to the engine); `is_visible`, which `update_current_state` sets,
is kept. -/
structure Person where
  track_id : ℕ
  face_encodings : List (List ℚ)
  face_images : List ℕ
  face_boxes : List ℕ
  missed_frames : ℕ
  name : Option String
  mean_encoding : Option (List ℚ)
  is_visible : Bool
  deriving DecidableEq, Repr

/-- `TrackedPerson.__init__` on a cold start (no persisted data found by
`load_data`). -/
def newPerson (id : ℕ) : Person :=
  { track_id := id, face_encodings := [], face_images := [], face_boxes := []
    missed_frames := 0, name := none, mean_encoding := none, is_visible := false }

/-- `TrackedPerson.update_mean_encoding` (person.py lines 128-131). -/
def update_mean_encoding (p : Person) : Person :=
  if p.face_encodings.isEmpty then p
  else { p with mean_encoding := some (vecMean p.face_encodings) }

/-- `TrackedPerson.add_face_data` (person.py lines 89-114): refuse when
`MAX_FACE_IMAGES` reached; refuse when the new encoding is within `0.2`
(squared: `1/25`) of a stored one; otherwise append encoding/image/bbox and
recompute the mean.  The `save_face_image` disk write is not modelled. -/
def addFaceData (p : Person) (enc : List ℚ) (img : ℕ) (bbox : Option ℕ) : Person :=
  if MAX_FACE_IMAGES ≤ p.face_encodings.length then p
  else if p.face_encodings.any (fun e => dist2 enc e ≤ DUPLICATE_EPS2) then p
  else
    update_mean_encoding
      { p with
          face_encodings := p.face_encodings ++ [enc]
          face_images := p.face_images ++ [img]
          face_boxes := p.face_boxes ++ (match bbox with | some b => [b] | none => []) }

/-- `TrackedPerson.update` (person.py lines 85-87). -/
def personUpdate (p : Person) : Person := { p with missed_frames := 0 }

/-- `TrackedPerson.mark_not_visible` (person.py lines 230-232). -/
def markNotVisible (p : Person) : Person := { p with is_visible := false }

/-! ## `FaceRecognizer` (`uv_app/core/recognition.py`) -/

/-- One entry of `candidate_faces`: the dict
`{"encoding": ..., "img": ..., "bbox": ..., "count": ...}`. -/
structure Candidate where
  encoding : List ℚ
  img : ℕ
  bbox : ℕ
  count : ℕ
  deriving DecidableEq, Repr

/-- The mutable state of `FaceRecognizer`. -/
structure RecognizerState where
  tracked_people : List Person
  lost_people : List Person
  candidate_faces : List Candidate
  next_id : ℕ
  deriving DecidableEq, Repr

/-- `FaceRecognizer.__init__`. -/
def initState : RecognizerState :=
  { tracked_people := [], lost_people := [], candidate_faces := [], next_id := 1 }

/-- The reliability adjustment of `find_best_match` (recognition.py lines
47-51): `*= 0.95` for ≥ 3 stored encodings, `*= 1.05` for exactly one —
squared here, consistent with squared distances. -/
def adjust2 (n : ℕ) (d2 : ℚ) : ℚ :=
  if 3 ≤ n then d2 * (95/100) ^ 2
  else if n = 1 then d2 * (105/100) ^ 2
  else d2

/-- One iteration of the `find_best_match` scan: skip people whose
`mean_encoding is None`, otherwise compare the adjusted distance with the
best so far. -/
def fbmStep (enc : List ℚ) (best : Option Person × WithTop ℚ) (p : Person) :
    Option Person × WithTop ℚ :=
  match p.mean_encoding with
  | none => best
  | some m =>
      let d : ℚ := adjust2 p.face_encodings.length (dist2 enc m)
      if (d : WithTop ℚ) < best.2 then (some p, (d : WithTop ℚ)) else best

/-- `FaceRecognizer.find_best_match` (recognition.py lines 29-57), applied to
the list `self.tracked_people + self.lost_people`.  Pure: it only reads. -/
def findBestMatch (people : List Person) (enc : List ℚ) :
    Option Person × WithTop ℚ :=
  people.foldl (fbmStep enc) (none, ⊤)

/-- `FaceRecognizer._add_candidate` (recognition.py lines 103-111). -/
def addCandidate (s : RecognizerState) (enc : List ℚ) (img bbox : ℕ) :
    RecognizerState :=
  { s with candidate_faces :=
      s.candidate_faces ++ [{ encoding := enc, img := img, bbox := bbox, count := 1 }] }

/-- Replace (in place) every person with the given id by `f` of it. -/
def updatePersonIn (l : List Person) (pid : ℕ) (f : Person → Person) : List Person :=
  l.map (fun p => if p.track_id = pid then f p else p)

/-- `FaceRecognizer._update_existing_person` (recognition.py lines 89-101):
move the person from `lost_people` back to `tracked_people` if necessary, then
`person.update()` followed by `person.add_face_data(...)`.  The Python object
is identified by its unique `track_id`. -/
def updateExistingPerson (s : RecognizerState) (pid : ℕ) (enc : List ℚ)
    (img bbox : ℕ) : RecognizerState :=
  let s :=
    if s.lost_people.any (fun p => p.track_id = pid) then
      { s with
          lost_people := s.lost_people.filter (fun p => p.track_id ≠ pid)
          tracked_people :=
            s.tracked_people ++ s.lost_people.filter (fun p => p.track_id = pid) }
    else s
  { s with
      tracked_people :=
        updatePersonIn s.tracked_people pid
          (fun p => addFaceData (personUpdate p) enc img (some bbox)) }

/-- `FaceRecognizer._create_new_person` (recognition.py lines 163-174): a
fresh `TrackedPerson(next_id)` receives the face data, is appended to
`tracked_people`, and `next_id` is incremented (`save_data` is disk-only). -/
def createNewPerson (s : RecognizerState) (enc : List ℚ) (img bbox : ℕ) :
    RecognizerState × Person :=
  let np := addFaceData (newPerson s.next_id) enc img (some bbox)
  ({ s with tracked_people := s.tracked_people ++ [np], next_id := s.next_id + 1 }, np)

/-- `FaceRecognizer.process_face` (recognition.py lines 59-87): match against
`tracked + lost`; on `best_match and best_distance < MATCH_THRESHOLD` update
the person (returning its id), else admit a candidate (returning `none`). -/
def processFace (s : RecognizerState) (enc : List ℚ) (img bbox : ℕ) :
    RecognizerState × Option ℕ :=
  match findBestMatch (s.tracked_people ++ s.lost_people) enc with
  | (some p, d) =>
      if d < ((MATCH_THRESHOLD2 : ℚ) : WithTop ℚ) then
        (updateExistingPerson s p.track_id enc img bbox, some p.track_id)
      else
        (addCandidate s enc img bbox, none)
  | (none, _) => (addCandidate s enc img bbox, none)

/-- One iteration of the `process_candidates` loop (recognition.py lines
125-153) over the snapshot `self.candidate_faces[:]`.  The accumulator
carries the engine state, the kept (still live) candidates, the promotions
performed so far and, as a ghost observation used only by the theorems, the
ids of the people candidates were merged into. -/
def candStep (acc : RecognizerState × List Candidate × List (Candidate × Person) × List ℕ)
    (c0 : Candidate) :
    RecognizerState × List Candidate × List (Candidate × Person) × List ℕ :=
  let (st, kept, promos, merges) := acc
  let c := { c0 with count := c0.count + 1 }
  match findBestMatch (st.tracked_people ++ st.lost_people) c.encoding with
  | (some p, d) =>
      if d < ((MATCH_THRESHOLD2 : ℚ) : WithTop ℚ) then
        (updateExistingPerson st p.track_id c.encoding c.img c.bbox,
         kept, promos, merges ++ [p.track_id])
      else if MIN_FRAMES_TO_CONFIRM ≤ c.count then
        let (st', np) := createNewPerson st c.encoding c.img c.bbox
        (st', kept, promos ++ [(c, np)], merges)
      else
        (st, kept ++ [c], promos, merges)
  | (none, _) =>
      if MIN_FRAMES_TO_CONFIRM ≤ c.count then
        let (st', np) := createNewPerson st c.encoding c.img c.bbox
        (st', kept, promos ++ [(c, np)], merges)
      else
        (st, kept ++ [c], promos, merges)

/-- `FaceRecognizer.process_candidates` (recognition.py lines 113-161):
iterate the snapshot, incrementing `count`, merging candidates that now match,
promoting those with `count >= MIN_FRAMES_TO_CONFIRM`, then filter out stale
candidates with `count >= MIN_FRAMES_TO_CONFIRM * 2`.  Returns the new state,
the promotions `(candidate, new person)` (the source returns just the new
people) and the ghost merge log. -/
def processCandidates (s : RecognizerState) :
    RecognizerState × List (Candidate × Person) × List ℕ :=
  let (st, kept, promos, merges) := s.candidate_faces.foldl candStep (s, [], [], [])
  ({ st with candidate_faces :=
       kept.filter (fun c => c.count < MIN_FRAMES_TO_CONFIRM * 2) },
   promos, merges)

/-- One iteration of the `update_tracking` loop over the snapshot of
`tracked_people`: a person missing from the current frame gets
`missed_frames` incremented and, past 50 (`MAX_MISSED_FRAMES`), moves to
`lost_people`. -/
def utStep (ids : List ℕ) (acc : List Person × List Person) (p : Person) :
    List Person × List Person :=
  if ids.contains p.track_id then (acc.1 ++ [p], acc.2)
  else
    let p := { p with missed_frames := p.missed_frames + 1 }
    if 50 < p.missed_frames then (acc.1, acc.2 ++ [p]) else (acc.1 ++ [p], acc.2)

/-- `FaceRecognizer.update_tracking` (recognition.py lines 176-192). -/
def updateTracking (s : RecognizerState) (ids : List ℕ) : RecognizerState :=
  let (tr, lo) := s.tracked_people.foldl (utStep ids) ([], s.lost_people)
  { s with tracked_people := tr, lost_people := lo }

/-! ## The per-frame driver (`uv_app/core/tracking.py`, recognition part) -/

/-- One fresh detection handed to the resolution engine. -/
structure Observation where
  encoding : List ℚ
  img : ℕ
  bbox : ℕ
  deriving DecidableEq, Repr

/-- The `update_current_state` call on a matched person (tracking.py lines
159-162): the person, residing in `tracked_people` after
`_update_existing_person`, becomes visible. -/
def setVisible (s : RecognizerState) (pid : ℕ) : RecognizerState :=
  { s with tracked_people :=
      updatePersonIn s.tracked_people pid (fun p => { p with is_visible := true }) }

/-- The visibility reset at the start of `process_frame` (tracking.py lines
103-106): only `tracked_people` are reset. -/
def markTrackedNotVisible (s : RecognizerState) : RecognizerState :=
  { s with tracked_people := s.tracked_people.map markNotVisible }

/-- One iteration of the face-processing loop of
`PersonTracker._process_faces` (tracking.py lines 148-190): the observation
goes through `process_face`; a match is recorded in `current_frame_ids` and
made visible via `update_current_state`. -/
def obsStep (acc : RecognizerState × List ℕ) (o : Observation) :
    RecognizerState × List ℕ :=
  match processFace acc.1 o.encoding o.img o.bbox with
  | (st, some pid) => (setVisible st pid, acc.2 ++ [pid])
  | (st, none) => (st, acc.2)

/-- The face-processing loop of `PersonTracker._process_faces` over all of
the frame's detections. -/
def processObservations (s : RecognizerState) (obs : List Observation) :
    RecognizerState × List ℕ :=
  obs.foldl obsStep (s, [])

/-- One tick of `PersonTracker.process_frame` (tracking.py lines 89-130),
restricted to the resolution engine: reset visibility of tracked people,
process the frame's observations, process candidates (newly created people
joining `current_frame_ids`, tracking.py lines 192-195), then
`update_tracking`.  Plugins read but do not mutate this state. -/
def tick (s : RecognizerState) (obs : List Observation) : RecognizerState :=
  let s := markTrackedNotVisible s
  let (s, ids) := processObservations s obs
  let (s, promos, _) := processCandidates s
  updateTracking s (ids ++ (promos.map (fun pr => pr.2.track_id)))

/-- The states the resolution engine can reach: a cold start, or a store
pre-populated by `load_existing_people` (loaded people are constructed with
`is_visible = False` and go into `tracked_people`), closed under ticks. -/
inductive Reachable : RecognizerState → Prop
  | init : Reachable initState
  | load (people : List Person) (n : ℕ)
      (h : ∀ p ∈ people, p.is_visible = false) :
      Reachable { tracked_people := people, lost_people := [],
                  candidate_faces := [], next_id := n }
  | tick (s : RecognizerState) (obs : List Observation) :
      Reachable s → Reachable (tick s obs)

/-! ## Plugins and the manager (`uv_app/plugins/base.py`, `manager.py`)

A plugin's `process_person(person, frame)` either returns a result or raises;
we model the body as a function from the person's `track_id` to
`Except String ℕ` (payloads are opaque tokens, exceptions carry their
message).  Times are integer milliseconds. -/

structure Plugin where
  name : String
  update_interval_ms : ℤ
  last_update : ℤ
  enabled : Bool
  process : ℕ → Except String ℕ

/-- `BasePlugin.should_update` (base.py lines 38-42). -/
def shouldUpdate (pl : Plugin) (now : ℤ) : Bool :=
  if !pl.enabled then false
  else decide (pl.update_interval_ms ≤ now - pl.last_update)

/-- `BasePlugin.update_timestamp` (base.py lines 44-46). -/
def updateTimestamp (pl : Plugin) (now : ℤ) : Plugin :=
  { pl with last_update := now }

/-- `BasePlugin.enable` (base.py lines 48-50). -/
def pluginEnable (pl : Plugin) : Plugin := { pl with enabled := true }

/-- `BasePlugin.disable` (base.py lines 52-54). -/
def pluginDisable (pl : Plugin) : Plugin := { pl with enabled := false }

/-- One value of `PluginManager.results`: either the success dict
`{"person_id", "plugin", "result", "timestamp"}` (`result = some _`,
`error = none`) or the error dict `{"person_id", "plugin", "error",
"timestamp"}` (`result = none`, `error = some _`) — manager.py lines 48-53
and 93-98.  An absent `Option` field is an absent dict key. -/
structure Entry where
  person_id : ℕ
  plugin : String
  result : Option ℕ
  error : Option String
  timestamp : ℤ
  deriving DecidableEq, Repr

/-- CPython dict insertion: overwrite in place if the key exists, else append. -/
def dictInsert (d : List (String × Entry)) (k : String) (v : Entry) :
    List (String × Entry) :=
  if d.any (fun kv => kv.1 = k) then
    d.map (fun kv => if kv.1 = k then (k, v) else kv)
  else d ++ [(k, v)]

/-- The f-string key `f"{plugin.name}_{person.track_id}"`. -/
def resultKey (pluginName : String) (pid : ℕ) : String :=
  pluginName ++ "_" ++ toString pid

/-- The slice of a `TrackedPerson` the manager reads. -/
structure MPerson where
  track_id : ℕ
  is_visible : Bool
  deriving DecidableEq, Repr

/-- `PluginManager` state: the registration list and the results dict
(`_last_emotions` is log-only bookkeeping and not modelled). -/
structure ManagerState where
  plugins : List Plugin
  results : List (String × Entry)

/-- `PluginManager.process_people` (manager.py lines 35-98): skip invisible
people; for each visible person, for each plugin in registration order, run
the due ones: on success store the result dict and advance the plugin's
timestamp, on an exception store the error dict and leave the timestamp alone
(`update_timestamp` sits after the raise point inside the `try`).  The
logging code in between is not modelled.  The plugin at position `i` of the
live list is mutated in place.  The ghost log records each
`(plugin name, person id)` pair actually executed. -/
def processPeople (st : ManagerState) (people : List MPerson) (now : ℤ) :
    ManagerState × List (String × ℕ) :=
  people.foldl
    (fun (acc : ManagerState × List (String × ℕ)) person =>
      if !person.is_visible then acc
      else
        (List.range acc.1.plugins.length).foldl
          (fun (acc : ManagerState × List (String × ℕ)) i =>
            match acc.1.plugins[i]? with
            | none => acc
            | some pl =>
                if shouldUpdate pl now then
                  match pl.process person.track_id with
                  | .ok r =>
                      ({ plugins := acc.1.plugins.set i (updateTimestamp pl now)
                         results :=
                           dictInsert acc.1.results (resultKey pl.name person.track_id)
                             { person_id := person.track_id, plugin := pl.name
                               result := some r, error := none, timestamp := now } },
                       acc.2 ++ [(pl.name, person.track_id)])
                  | .error e =>
                      ({ acc.1 with
                           results :=
                             dictInsert acc.1.results (resultKey pl.name person.track_id)
                               { person_id := person.track_id, plugin := pl.name
                                 result := none, error := some e, timestamp := now } },
                       acc.2 ++ [(pl.name, person.track_id)])
                else acc)
          acc)
    (st, [])

/-- A Python `dict[str, payload]` under construction in the getters. -/
def dictInsertN (d : List (String × ℕ)) (k : String) (v : ℕ) : List (String × ℕ) :=
  if d.any (fun kv => kv.1 = k) then
    d.map (fun kv => if kv.1 = k then (k, v) else kv)
  else d ++ [(k, v)]

def dictInsertI (d : List (ℕ × ℕ)) (k : ℕ) (v : ℕ) : List (ℕ × ℕ) :=
  if d.any (fun kv => kv.1 = k) then
    d.map (fun kv => if kv.1 = k then (k, v) else kv)
  else d ++ [(k, v)]

/-- `PluginManager.get_results_for_person` (manager.py lines 100-107): for
every entry of the matching person it reads `result["result"]` —
unconditionally, so an error entry (which has no `"result"` key) raises
`KeyError`, modelled as `Except.error`. -/
def getResultsForPerson (results : List (String × Entry)) (pid : ℕ) :
    Except String (List (String × ℕ)) :=
  results.foldl
    (fun acc kv =>
      match acc with
      | .error e => .error e
      | .ok m =>
          if kv.2.person_id = pid then
            match kv.2.result with
            | some r => .ok (dictInsertN m kv.2.plugin r)
            | none => .error "KeyError: result"
          else .ok m)
    (.ok [])

/-- `PluginManager.get_results_for_plugin` (manager.py lines 109-116); the
same unconditional `result["result"]` access, but only on entries whose
`"plugin"` field matches. -/
def getResultsForPlugin (results : List (String × Entry)) (pluginName : String) :
    Except String (List (ℕ × ℕ)) :=
  results.foldl
    (fun acc kv =>
      match acc with
      | .error e => .error e
      | .ok m =>
          if kv.2.plugin = pluginName then
            match kv.2.result with
            | some r => .ok (dictInsertI m kv.2.person_id r)
            | none => .error "KeyError: result"
          else .ok m)
    (.ok [])

/-- `PluginManager.unregister_plugin` (manager.py lines 28-33): drop every
plugin of that name from the list and, if (and only if) the *results dict*
has a key literally equal to the plugin name, delete that key. -/
def unregisterPlugin (st : ManagerState) (pluginName : String) : ManagerState :=
  { plugins := st.plugins.filter (fun p => p.name ≠ pluginName)
    results :=
      if st.results.any (fun kv => kv.1 = pluginName) then
        st.results.filter (fun kv => kv.1 ≠ pluginName)
      else st.results }

/-- `PluginManager.clear_old_results` (manager.py lines 122-132). -/
def clearOldResults (st : ManagerState) (now maxAge : ℤ) : ManagerState :=
  { st with results := st.results.filter (fun kv => now - kv.2.timestamp < maxAge) }

/-! ## `SmolVLMPlugin` (`uv_app/plugins/smolvlm_plugin.py`)

The asynchronous body plugin.  Its `pending_requests` dict and the three
events that touch it — a `process_body` call on the scheduler thread, the
completion of the background `_make_api_request`, and the delayed
`_cleanup_request` — are modelled as explicit state transitions; the ghost
boolean returned by `smolProcessBody` records whether a background thread
was spawned. -/

/-- An entry's `last_result` dict: the initial pending marker, a success
payload, or an error payload (timeout / non-200 / transport error). -/
inductive SRes
  | pendingRes
  | success (description : String)
  | failure (msg : String)
  deriving DecidableEq, Repr

/-- One value of `pending_requests` (the `thread` handle is not modelled). -/
structure PendingReq where
  request_id : String
  last_result : SRes
  deriving DecidableEq, Repr

/-- `pending_requests`, keyed by `person.track_id`. -/
abbrev SmolState := List (ℕ × PendingReq)

def smolLookup (s : SmolState) (pid : ℕ) : Option PendingReq :=
  (s.find? (fun kv => kv.1 = pid)).map (fun kv => kv.2)

/-- `SmolVLMPlugin.process_body` (smolvlm_plugin.py lines 40-73): if a request
for this person is already pending, return its `last_result` without spawning
anything; otherwise spawn the background request and store the pending entry.
Returns `(new state, returned result, spawned?)`. -/
def smolProcessBody (s : SmolState) (pid : ℕ) (nowMs : ℤ) :
    SmolState × SRes × Bool :=
  match smolLookup s pid with
  | some req => (s, req.last_result, false)
  | none =>
      let entry : PendingReq :=
        { request_id := toString pid ++ "_" ++ toString nowMs
          last_result := SRes.pendingRes }
      (s ++ [(pid, entry)], SRes.pendingRes, true)

/-- Completion of `_make_api_request` (smolvlm_plugin.py lines 75-144): if the
entry is still present, overwrite its `last_result` with the outcome (success
or error); the entry itself stays — the `finally` block only *schedules* a
cleanup 30 seconds later. -/
def smolComplete (s : SmolState) (pid : ℕ) (outcome : Except String String) :
    SmolState :=
  s.map (fun kv =>
    if kv.1 = pid then
      (kv.1,
       { kv.2 with
           last_result :=
             match outcome with
             | .ok d => SRes.success d
             | .error e => SRes.failure e })
    else kv)

/-- `SmolVLMPlugin._cleanup_request` (smolvlm_plugin.py lines 146-149), fired
by the 30-second timer. -/
def smolCleanup (s : SmolState) (pid : ℕ) : SmolState :=
  s.filter (fun kv => kv.1 ≠ pid)

/-! ## The `ConfirmFrames` scenario (spec §8, claims C3/C4)

`MatchThreshold = 0.5`, `ConfirmFrames = 5`: one identical fingerprint `v`
observed once per tick, starting from an empty store. -/

/-- The scenario driver: `n` ticks, each with the single observation `v`. -/
def idealTicks (v : List ℚ) : ℕ → RecognizerState
  | 0 => initState
  | n + 1 => tick (idealTicks v n) [{ encoding := v, img := 0, bbox := 0 }]

/-- The identity the scenario creates: id 1, the single fingerprint `v`,
mean `v`, active (in `tracked_people`) and not yet visible. -/
def promotedPerson (v : List ℚ) : Person :=
  { track_id := 1, face_encodings := [v], face_images := [0], face_boxes := [0]
    missed_frames := 0, name := none, mean_encoding := some v, is_visible := false }

lemma adjust2_one_zero : adjust2 1 0 = 0 := by norm_num [adjust2]

lemma zero_lt_thresh :
    (((0 : ℚ) : WithTop ℚ) < ((MATCH_THRESHOLD2 : ℚ) : WithTop ℚ)) := by
  rw [WithTop.coe_lt_coe]; norm_num [MATCH_THRESHOLD2]

lemma addFaceData_newPerson (v : List ℚ) :
    addFaceData (newPerson 1) v 0 (some 0) = promotedPerson v := by
  simp [addFaceData, newPerson, update_mean_encoding, MAX_FACE_IMAGES,
    DUPLICATE_EPS2, promotedPerson, vecMean_singleton]

/-- Duplicate suppression: adding an encoding already stored changes nothing
(its distance to itself is `0 ≤ 0.2²`). -/
lemma addFaceData_self_mem (p : Person) (enc : List ℚ) (img : ℕ) (bbox : Option ℕ)
    (h : enc ∈ p.face_encodings) : addFaceData p enc img bbox = p := by
  unfold addFaceData
  split
  · rfl
  · rw [if_pos]
    exact List.any_eq_true.mpr ⟨enc, h, by simp [dist2_self, DUPLICATE_EPS2]⟩

lemma fbm_promoted (v : List ℚ) :
    findBestMatch [promotedPerson v] v =
      (some (promotedPerson v), ((0 : ℚ) : WithTop ℚ)) := by
  simp [findBestMatch, fbmStep, promotedPerson, dist2_self, adjust2_one_zero,
    WithTop.coe_lt_top]

lemma updateExisting_promoted (v : List ℚ) (cs : List Candidate) (n : ℕ)
    (img bbox : ℕ) :
    updateExistingPerson
      { tracked_people := [promotedPerson v], lost_people := [],
        candidate_faces := cs, next_id := n } 1 v img bbox =
      { tracked_people := [promotedPerson v], lost_people := [],
        candidate_faces := cs, next_id := n } := by
  simp [updateExistingPerson, updatePersonIn, promotedPerson, personUpdate]
  exact addFaceData_self_mem _ v img (some bbox) (by simp)

/-- A candidate carrying the fingerprint `v` is merged (made a fresh
observation of, and removed) into the already-promoted identity, whatever its
`count`: the match branch precedes the promotion test. -/
lemma candStep_merge (v : List ℚ) (cs : List Candidate) (n : ℕ)
    (kept : List Candidate) (promos : List (Candidate × Person)) (merges : List ℕ)
    (c : Candidate) (hc : c.encoding = v) :
    candStep
      ({ tracked_people := [promotedPerson v], lost_people := [],
         candidate_faces := cs, next_id := n }, kept, promos, merges) c =
      ({ tracked_people := [promotedPerson v], lost_people := [],
         candidate_faces := cs, next_id := n }, kept, promos, merges ++ [1]) := by
  unfold candStep
  simp only [hc, List.append_nil, fbm_promoted]
  rw [if_pos zero_lt_thresh]
  rw [show (promotedPerson v).track_id = 1 from rfl, updateExisting_promoted]

lemma tick_eq (s : RecognizerState) (obs : List Observation) :
    tick s obs =
      updateTracking
        (processCandidates (processObservations (markTrackedNotVisible s) obs).1).1
        ((processObservations (markTrackedNotVisible s) obs).2 ++
          ((processCandidates (processObservations (markTrackedNotVisible s) obs).1).2.1.map
            (fun pr => pr.2.track_id))) := rfl

lemma processFace_matched (v : List ℚ) (cs : List Candidate) (n : ℕ) :
    processFace
      { tracked_people := [promotedPerson v], lost_people := [],
        candidate_faces := cs, next_id := n } v 0 0 =
      ({ tracked_people := [promotedPerson v], lost_people := [],
         candidate_faces := cs, next_id := n }, some 1) := by
  unfold processFace
  simp only [List.append_nil, fbm_promoted]
  rw [if_pos zero_lt_thresh]
  rw [show (promotedPerson v).track_id = 1 from rfl, updateExisting_promoted]

lemma ideal_tick1 (v : List ℚ) :
    idealTicks v 1 =
      { tracked_people := [], lost_people := []
        candidate_faces := [{ encoding := v, img := 0, bbox := 0, count := 2 }]
        next_id := 1 } := rfl

lemma ideal_tick2 (v : List ℚ) :
    idealTicks v 2 =
      { tracked_people := [], lost_people := []
        candidate_faces :=
          [{ encoding := v, img := 0, bbox := 0, count := 3 },
           { encoding := v, img := 0, bbox := 0, count := 2 }]
        next_id := 1 } := rfl

/-- After tick 3 of the scenario: three live candidates (one admitted per
tick, since an unmatched observation never merges into an existing
candidate), with counts 4, 3, 2 (each candidate's count is incremented by
`process_candidates` already on its admission tick). -/
lemma ideal_tick3 (v : List ℚ) :
    idealTicks v 3 =
      { tracked_people := [], lost_people := []
        candidate_faces :=
          [{ encoding := v, img := 0, bbox := 0, count := 4 },
           { encoding := v, img := 0, bbox := 0, count := 3 },
           { encoding := v, img := 0, bbox := 0, count := 2 }]
        next_id := 1 } := rfl

/-- Tick 4 of the scenario: the oldest candidate reaches
`count = 5 = MIN_FRAMES_TO_CONFIRM` and is promoted to identity 1; the
remaining candidates (counts 4, 3, 2 after increment) all match the fresh
identity and are merged into it (duplicate suppression keeps its fingerprint
list at `[v]`). -/
lemma ideal_tick4 (v : List ℚ) :
    idealTicks v 4 =
      { tracked_people := [promotedPerson v], lost_people := [],
        candidate_faces := [], next_id := 2 } := by
  show tick (idealTicks v 3) _ = _
  rw [ideal_tick3, tick_eq]
  have hobs : processObservations
      (markTrackedNotVisible
        { tracked_people := [], lost_people := []
          candidate_faces :=
            [{ encoding := v, img := 0, bbox := 0, count := 4 },
             { encoding := v, img := 0, bbox := 0, count := 3 },
             { encoding := v, img := 0, bbox := 0, count := 2 }]
          next_id := 1 })
      [{ encoding := v, img := 0, bbox := 0 }] =
      ({ tracked_people := [], lost_people := []
         candidate_faces :=
           [{ encoding := v, img := 0, bbox := 0, count := 4 },
            { encoding := v, img := 0, bbox := 0, count := 3 },
            { encoding := v, img := 0, bbox := 0, count := 2 },
            { encoding := v, img := 0, bbox := 0, count := 1 }]
         next_id := 1 }, []) := rfl
  rw [hobs]
  have hA : candStep
      ({ tracked_people := [], lost_people := []
         candidate_faces :=
           [{ encoding := v, img := 0, bbox := 0, count := 4 },
            { encoding := v, img := 0, bbox := 0, count := 3 },
            { encoding := v, img := 0, bbox := 0, count := 2 },
            { encoding := v, img := 0, bbox := 0, count := 1 }]
         next_id := 1 }, ([] : List Candidate), ([] : List (Candidate × Person)),
        ([] : List ℕ))
      { encoding := v, img := 0, bbox := 0, count := 4 } =
      ({ tracked_people := [addFaceData (newPerson 1) v 0 (some 0)], lost_people := []
         candidate_faces :=
           [{ encoding := v, img := 0, bbox := 0, count := 4 },
            { encoding := v, img := 0, bbox := 0, count := 3 },
            { encoding := v, img := 0, bbox := 0, count := 2 },
            { encoding := v, img := 0, bbox := 0, count := 1 }]
         next_id := 2 }, ([] : List Candidate),
       [({ encoding := v, img := 0, bbox := 0, count := 5 },
         addFaceData (newPerson 1) v 0 (some 0))], ([] : List ℕ)) := rfl
  simp only [processCandidates, List.foldl_cons, List.foldl_nil, hA,
    addFaceData_newPerson]
  rw [candStep_merge v _ _ _ _ _ _ rfl]
  rw [candStep_merge v _ _ _ _ _ _ rfl]
  rw [candStep_merge v _ _ _ _ _ _ rfl]
  rfl

/-- Tick 5 of the scenario: the observation matches identity 1 directly
(duplicate suppression again adds nothing) and marks it visible. -/
lemma ideal_tick5 (v : List ℚ) :
    idealTicks v 5 =
      { tracked_people := [{ promotedPerson v with is_visible := true }],
        lost_people := [], candidate_faces := [], next_id := 2 } := by
  show tick (idealTicks v 4) _ = _
  rw [ideal_tick4, tick_eq]
  have hm : markTrackedNotVisible
      { tracked_people := [promotedPerson v], lost_people := [],
        candidate_faces := [], next_id := 2 } =
      { tracked_people := [promotedPerson v], lost_people := [],
        candidate_faces := [], next_id := 2 } := by
    simp [markTrackedNotVisible, markNotVisible, promotedPerson]
  rw [hm]
  have hobs : processObservations
      { tracked_people := [promotedPerson v], lost_people := [],
        candidate_faces := [], next_id := 2 }
      [{ encoding := v, img := 0, bbox := 0 }] =
      ({ tracked_people := [{ promotedPerson v with is_visible := true }],
         lost_people := [], candidate_faces := [], next_id := 2 }, [1]) := by
    simp only [processObservations, obsStep, List.foldl_cons, List.foldl_nil,
      processFace_matched]
    simp [setVisible, updatePersonIn, promotedPerson]
  rw [hobs]
  rfl

/-- A brand-new person receiving its first face data: the single encoding is
stored and becomes the mean. -/
lemma addFaceData_newPerson_gen (id : ℕ) (enc : List ℚ) (img b : ℕ) :
    addFaceData (newPerson id) enc img (some b) =
      { track_id := id, face_encodings := [enc], face_images := [img]
        face_boxes := [b], missed_frames := 0, name := none
        mean_encoding := some enc, is_visible := false } := by
  simp [addFaceData, newPerson, update_mean_encoding, MAX_FACE_IMAGES,
    DUPLICATE_EPS2, vecMean_singleton]

lemma updateExistingPerson_next_id (s : RecognizerState) (pid : ℕ)
    (enc : List ℚ) (img bbox : ℕ) :
    (updateExistingPerson s pid enc img bbox).next_id = s.next_id := by
  unfold updateExistingPerson
  dsimp only
  split <;> rfl

/-- The `process_candidates` snapshot of tick 4 of the scenario, in
isolation: the first candidate is promoted to the fresh identity 1, and the
remaining two candidates are merged into that same, just-created identity
(ghost merge log `[1, 1]`). -/
lemma processCandidates_tick3 (v : List ℚ) :
    processCandidates (idealTicks v 3) =
      ({ tracked_people := [promotedPerson v], lost_people := [],
         candidate_faces := [], next_id := 2 },
       [({ encoding := v, img := 0, bbox := 0, count := 5 }, promotedPerson v)],
       [1, 1]) := by
  rw [ideal_tick3]
  have hA : candStep
      ({ tracked_people := [], lost_people := []
         candidate_faces :=
           [{ encoding := v, img := 0, bbox := 0, count := 4 },
            { encoding := v, img := 0, bbox := 0, count := 3 },
            { encoding := v, img := 0, bbox := 0, count := 2 }]
         next_id := 1 }, ([] : List Candidate), ([] : List (Candidate × Person)),
        ([] : List ℕ))
      { encoding := v, img := 0, bbox := 0, count := 4 } =
      ({ tracked_people := [addFaceData (newPerson 1) v 0 (some 0)], lost_people := []
         candidate_faces :=
           [{ encoding := v, img := 0, bbox := 0, count := 4 },
            { encoding := v, img := 0, bbox := 0, count := 3 },
            { encoding := v, img := 0, bbox := 0, count := 2 }]
         next_id := 2 }, ([] : List Candidate),
       [({ encoding := v, img := 0, bbox := 0, count := 5 },
         addFaceData (newPerson 1) v 0 (some 0))], ([] : List ℕ)) := rfl
  simp only [processCandidates, List.foldl_cons, List.foldl_nil, hA,
    addFaceData_newPerson]
  rw [candStep_merge v _ _ _ _ _ _ rfl]
  rw [candStep_merge v _ _ _ _ _ _ rfl]
  rfl

/-! ## Claims -/

/-- Claim C3, counterexample.  With `MatchThreshold = 0.5` and
`ConfirmFrames = 5`, feeding the identical fingerprint `v = [0]` once per
tick from an empty store does *not* behave as claimed: after tick 1 the
candidate's `hit_count` is already 2 (not 1) — `_add_candidate` stores
`count = 1` and `process_candidates` increments it on the same tick — and
after tick 4 (not 5) the store already contains the promoted identity and no
candidate remains, refuting "on ticks 1 through 4 … hit_count 1..4 and no
Identity in the store; on tick 5 the Candidate is promoted". -/
theorem C3_counterexample :
    (idealTicks [0] 1).candidate_faces.map Candidate.count ≠ [1] ∧
    (idealTicks [0] 4).tracked_people ≠ [] ∧
    (idealTicks [0] 4).candidate_faces = [] := by
  refine ⟨?_, ?_, ?_⟩
  · rw [ideal_tick1]; simp
  · rw [ideal_tick4]; simp
  · rw [ideal_tick4]

/-- Claim C3, amended.  Starting from an empty identity store with
`MatchThreshold = 0.5` and `ConfirmFrames = 5`, feeding the identical
fingerprint `v` once per tick yields: on tick `t ∈ {1, 2, 3}` there are `t`
candidates (a new one is admitted each tick because unmatched observations
never merge into existing candidates), the oldest having `hit_count = t + 1`
(the count is incremented on the admission tick as well), and no Identity in
the store; on tick 4 the oldest candidate reaches
`hit_count = 5 = ConfirmFrames` and is promoted: exactly one Identity
exists, with id 1, fingerprints equal to `[v]` (exactly one stored
fingerprint), mean fingerprint `v`, in Active state (`tracked_people`); the
remaining candidates merge into it and the ledger empties; tick 5 leaves the
identity unchanged except for marking it visible. -/
theorem C3_amended (v : List ℚ) :
    (idealTicks v 1).tracked_people = [] ∧
    (idealTicks v 1).candidate_faces.map Candidate.count = [2] ∧
    (idealTicks v 2).tracked_people = [] ∧
    (idealTicks v 2).candidate_faces.map Candidate.count = [3, 2] ∧
    (idealTicks v 3).tracked_people = [] ∧
    (idealTicks v 3).candidate_faces.map Candidate.count = [4, 3, 2] ∧
    idealTicks v 4 =
      { tracked_people := [promotedPerson v], lost_people := [],
        candidate_faces := [], next_id := 2 } ∧
    idealTicks v 5 =
      { tracked_people := [{ promotedPerson v with is_visible := true }],
        lost_people := [], candidate_faces := [], next_id := 2 } := by
  refine ⟨?_, ?_, ?_, ?_, ?_, ?_, ideal_tick4 v, ideal_tick5 v⟩ <;>
    simp [ideal_tick1, ideal_tick2, ideal_tick3]

/-- Claim C4, counterexample.  On the tick-4 `process_candidates` call of the
`ConfirmFrames = 5` scenario with fingerprint `v = [0]` (entered with
`next_id = 1`, i.e. identity 1 does not exist yet), the first candidate is
promoted to the brand-new identity 1 and the two remaining candidates are
*both merged into that same identity created during the same tick* (ghost
merge log `[1, 1]`), contradicting "no two Candidates are merged into the
same new Identity created during that same tick". -/
theorem C4_counterexample :
    (idealTicks [0] 3).next_id = 1 ∧
    ((processCandidates (idealTicks [0] 3)).2.1.map (fun pr => pr.2.track_id)) = [1] ∧
    (processCandidates (idealTicks [0] 3)).2.2 = [1, 1] := by
  refine ⟨by rw [ideal_tick3], ?_, by rw [processCandidates_tick3]⟩
  rw [processCandidates_tick3]
  simp [promotedPerson]

/-- Invariant carried through the `process_candidates` fold: promoted-so-far
identities have strictly increasing fresh ids below the running `next_id`,
and each holds exactly its candidate's single fingerprint. -/
def promoInv (nid0 : ℕ) (st : RecognizerState)
    (promos : List (Candidate × Person)) : Prop :=
  nid0 ≤ st.next_id ∧
  (promos.map (fun pr => pr.2.track_id)).Pairwise (· < ·) ∧
  ∀ pr ∈ promos, pr.2.face_encodings = [pr.1.encoding] ∧
    nid0 ≤ pr.2.track_id ∧ pr.2.track_id < st.next_id

lemma candStep_promoInv (nid0 : ℕ) (st : RecognizerState) (kept : List Candidate)
    (promos : List (Candidate × Person)) (merges : List ℕ) (c : Candidate)
    (h : promoInv nid0 st promos) :
    promoInv nid0 (candStep (st, kept, promos, merges) c).1
      (candStep (st, kept, promos, merges) c).2.2.1 := by
  obtain ⟨h0, h1, h2⟩ := h
  unfold candStep
  dsimp only
  rcases hf : findBestMatch (st.tracked_people ++ st.lost_people)
    ({ c with count := c.count + 1 } : Candidate).encoding with ⟨bp, d⟩
  cases bp with
  | some p =>
      dsimp only
      split
      · exact ⟨by rw [updateExistingPerson_next_id]; exact h0, h1, fun pr hpr =>
          ⟨(h2 pr hpr).1, (h2 pr hpr).2.1, by
            rw [updateExistingPerson_next_id]; exact (h2 pr hpr).2.2⟩⟩
      · split
        · refine ⟨le_trans h0 (Nat.le_succ _), ?_, ?_⟩
          · rw [List.map_append, List.pairwise_append]
            refine ⟨h1, by simp [createNewPerson, addFaceData_newPerson_gen], ?_⟩
            intro a ha b hb
            simp only [List.mem_map] at ha
            obtain ⟨pr, hpr, rfl⟩ := ha
            simp [createNewPerson, addFaceData_newPerson_gen] at hb
            subst hb
            exact (h2 pr hpr).2.2
          · intro pr hpr
            rw [List.mem_append] at hpr
            rcases hpr with hpr | hpr
            · exact ⟨(h2 pr hpr).1, (h2 pr hpr).2.1, by
                simp only [createNewPerson]
                exact Nat.lt_succ_of_lt (h2 pr hpr).2.2⟩
            · simp only [List.mem_singleton] at hpr
              subst hpr
              exact ⟨by simp [createNewPerson, addFaceData_newPerson_gen],
                by simpa [createNewPerson, addFaceData_newPerson_gen] using h0,
                by simp [createNewPerson, addFaceData_newPerson_gen]⟩
        · exact ⟨h0, h1, h2⟩
  | none =>
      dsimp only
      split
      · refine ⟨le_trans h0 (Nat.le_succ _), ?_, ?_⟩
        · rw [List.map_append, List.pairwise_append]
          refine ⟨h1, by simp [createNewPerson, addFaceData_newPerson_gen], ?_⟩
          intro a ha b hb
          simp only [List.mem_map] at ha
          obtain ⟨pr, hpr, rfl⟩ := ha
          simp [createNewPerson, addFaceData_newPerson_gen] at hb
          subst hb
          exact (h2 pr hpr).2.2
        · intro pr hpr
          rw [List.mem_append] at hpr
          rcases hpr with hpr | hpr
          · exact ⟨(h2 pr hpr).1, (h2 pr hpr).2.1, by
              simp only [createNewPerson]
              exact Nat.lt_succ_of_lt (h2 pr hpr).2.2⟩
          · simp only [List.mem_singleton] at hpr
            subst hpr
            exact ⟨by simp [createNewPerson, addFaceData_newPerson_gen],
              by simpa [createNewPerson, addFaceData_newPerson_gen] using h0,
              by simp [createNewPerson, addFaceData_newPerson_gen]⟩
      · exact ⟨h0, h1, h2⟩

lemma foldl_candStep_promoInv (nid0 : ℕ) (l : List Candidate)
    (acc : RecognizerState × List Candidate × List (Candidate × Person) × List ℕ)
    (h : promoInv nid0 acc.1 acc.2.2.1) :
    promoInv nid0 (l.foldl candStep acc).1 (l.foldl candStep acc).2.2.1 := by
  induction l generalizing acc with
  | nil => exact h
  | cons c cs ih =>
      rw [List.foldl_cons]
      apply ih
      obtain ⟨st, kept, promos, merges⟩ := acc
      exact candStep_promoInv nid0 st kept promos merges c h

lemma updateExistingPerson_cands (s : RecognizerState) (pid : ℕ)
    (enc : List ℚ) (img bbox : ℕ) :
    (updateExistingPerson s pid enc img bbox).candidate_faces =
      s.candidate_faces := by
  unfold updateExistingPerson
  dsimp only
  split <;> rfl

lemma candStep_kept_len (st : RecognizerState) (kept : List Candidate)
    (promos : List (Candidate × Person)) (merges : List ℕ) (c : Candidate) :
    ((candStep (st, kept, promos, merges) c).2.1).length ≤ kept.length + 1 := by
  unfold candStep
  dsimp only
  rcases findBestMatch (st.tracked_people ++ st.lost_people)
    ({ c with count := c.count + 1 } : Candidate).encoding with ⟨bp, d⟩
  cases bp with
  | some p =>
      dsimp only
      split
      · exact Nat.le_succ_of_le (le_refl _)
      · split
        · exact Nat.le_succ_of_le (le_refl _)
        · simp
  | none =>
      dsimp only
      split
      · exact Nat.le_succ_of_le (le_refl _)
      · simp

lemma foldl_candStep_kept_len (l : List Candidate) :
    ∀ acc : RecognizerState × List Candidate × List (Candidate × Person) × List ℕ,
      ((l.foldl candStep acc).2.1).length ≤ acc.2.1.length + l.length := by
  induction l with
  | nil => intro acc; simp
  | cons c cs ih =>
      intro acc
      rw [List.foldl_cons]
      have h1 := ih (candStep acc c)
      obtain ⟨st, kept, promos, merges⟩ := acc
      have h2 := candStep_kept_len st kept promos merges c
      dsimp only at h1 ⊢
      simp only [List.length_cons] at *
      omega

/-- Claim C4, amended.  Within a single `process_candidates` call, each
promotion creates exactly one brand-new Identity (fresh id, at least the
entering `next_id`) from exactly one Candidate's fingerprint (the new
identity stores precisely `[candidate.encoding]`), and no two promotions
yield the same Identity (the promoted ids are distinct); however — as the
counterexample shows — a Candidate processed later in the same tick *can* be
merged, as an ordinary match, into an Identity created earlier in that same
tick. -/
theorem C4_amended (s : RecognizerState) :
    ((processCandidates s).2.1.map (fun pr => pr.2.track_id)).Nodup ∧
    ∀ pr ∈ (processCandidates s).2.1,
      pr.2.face_encodings = [pr.1.encoding] ∧ s.next_id ≤ pr.2.track_id := by
  have h := foldl_candStep_promoInv s.next_id s.candidate_faces
    (s, ([] : List Candidate), ([] : List (Candidate × Person)), ([] : List ℕ))
    ⟨le_refl _, List.Pairwise.nil, by simp⟩
  have hpc : (processCandidates s).2.1 =
      (s.candidate_faces.foldl candStep (s, [], [], [])).2.2.1 := rfl
  constructor
  · rw [hpc]
    exact (h.2.1).imp (fun hlt => Nat.ne_of_lt hlt)
  · intro pr hpr
    rw [hpc] at hpr
    exact ⟨(h.2.2 pr hpr).1, (h.2.2 pr hpr).2.1⟩

lemma updateTracking_cands (s : RecognizerState) (ids : List ℕ) :
    (updateTracking s ids).candidate_faces = s.candidate_faces := rfl

lemma processFace_cands_len (s : RecognizerState) (enc : List ℚ) (img bbox : ℕ) :
    ((processFace s enc img bbox).1).candidate_faces.length ≤
      s.candidate_faces.length + 1 := by
  unfold processFace
  rcases findBestMatch (s.tracked_people ++ s.lost_people) enc with ⟨bp, d⟩
  cases bp with
  | some p =>
      dsimp only
      split
      · rw [updateExistingPerson_cands]; exact Nat.le_succ_of_le (le_refl _)
      · simp [addCandidate]
  | none => simp [addCandidate]

lemma obsStep_cands_len (acc : RecognizerState × List ℕ) (o : Observation) :
    ((obsStep acc o).1).candidate_faces.length ≤
      acc.1.candidate_faces.length + 1 := by
  unfold obsStep
  have h := processFace_cands_len acc.1 o.encoding o.img o.bbox
  rcases hf : processFace acc.1 o.encoding o.img o.bbox with ⟨st, pid?⟩
  rw [hf] at h
  cases pid? with
  | some pid => simpa [setVisible] using h
  | none => simpa using h

lemma foldl_obsStep_cands_len (obs : List Observation) :
    ∀ acc : RecognizerState × List ℕ,
      ((obs.foldl obsStep acc).1).candidate_faces.length ≤
        acc.1.candidate_faces.length + obs.length := by
  induction obs with
  | nil => intro acc; simp
  | cons o os ih =>
      intro acc
      rw [List.foldl_cons]
      have h1 := ih (obsStep acc o)
      have h2 := obsStep_cands_len acc o
      simp only [List.length_cons] at *
      omega

/-- Claim C8.  After any `process_candidates` call every remaining candidate
has `count < 2 * MIN_FRAMES_TO_CONFIRM` (the final cleanup filter keeps only
those), the call never grows the ledger, and a full tick grows it by at most
the number of observations admitted — so a bounded admission rate keeps the
ledger bounded.  In fact the code removes candidates strictly *earlier* than
the claim's "once hit_count exceeds 2 × ConfirmFrames": anything at or above
the bound is dropped. -/
theorem C8_staleness_bound (s : RecognizerState) (obs : List Observation) :
    (∀ c ∈ ((processCandidates s).1).candidate_faces,
      c.count < 2 * MIN_FRAMES_TO_CONFIRM) ∧
    ((processCandidates s).1).candidate_faces.length ≤ s.candidate_faces.length ∧
    (∀ c ∈ (tick s obs).candidate_faces, c.count < 2 * MIN_FRAMES_TO_CONFIRM) ∧
    (tick s obs).candidate_faces.length ≤ s.candidate_faces.length + obs.length := by
  have hfilter : ∀ t : RecognizerState, ∀ c ∈ ((processCandidates t).1).candidate_faces,
      c.count < 2 * MIN_FRAMES_TO_CONFIRM := by
    intro t c hc
    have he : ((processCandidates t).1).candidate_faces =
        ((t.candidate_faces.foldl candStep (t, [], [], [])).2.1).filter
          (fun c => c.count < MIN_FRAMES_TO_CONFIRM * 2) := rfl
    rw [he] at hc
    have := (List.mem_filter.mp hc).2
    have := of_decide_eq_true this
    omega
  have hlen : ∀ t : RecognizerState,
      ((processCandidates t).1).candidate_faces.length ≤
        t.candidate_faces.length := by
    intro t
    have he : ((processCandidates t).1).candidate_faces =
        ((t.candidate_faces.foldl candStep (t, [], [], [])).2.1).filter
          (fun c => c.count < MIN_FRAMES_TO_CONFIRM * 2) := rfl
    rw [he]
    calc (((t.candidate_faces.foldl candStep (t, [], [], [])).2.1).filter
            (fun c => c.count < MIN_FRAMES_TO_CONFIRM * 2)).length
        ≤ ((t.candidate_faces.foldl candStep (t, [], [], [])).2.1).length :=
          List.length_filter_le _ _
      _ ≤ [].length + t.candidate_faces.length :=
          foldl_candStep_kept_len t.candidate_faces (t, [], [], [])
      _ = t.candidate_faces.length := by simp
  have htick : (tick s obs).candidate_faces =
      ((processCandidates (processObservations (markTrackedNotVisible s) obs).1).1).candidate_faces := by
    rw [tick_eq, updateTracking_cands]
  refine ⟨hfilter s, hlen s, ?_, ?_⟩
  · rw [htick]; exact hfilter _
  · rw [htick]
    calc ((processCandidates (processObservations (markTrackedNotVisible s) obs).1).1).candidate_faces.length
        ≤ ((processObservations (markTrackedNotVisible s) obs).1).candidate_faces.length :=
          hlen _
      _ ≤ (markTrackedNotVisible s).candidate_faces.length + obs.length :=
          foldl_obsStep_cands_len obs (markTrackedNotVisible s, [])
      _ = s.candidate_faces.length + obs.length := rfl

lemma update_mean_encoding_encodings (p : Person) :
    (update_mean_encoding p).face_encodings = p.face_encodings := by
  unfold update_mean_encoding; split <;> rfl

/-- Claim C9.  `add_face_data` preserves the two fingerprint-store
invariants — at most `MAX_FACE_IMAGES` stored encodings, and any two stored
encodings strictly more than `0.2` apart (squared: `dist2 > 1/25`) — and it
is a complete no-op (fingerprints, images, boxes and mean all unchanged)
whenever the new encoding is within `0.2` of a stored one or the bound is
already reached. -/
theorem C9_add_face_data (p : Person) (enc : List ℚ) (img : ℕ) (bbox : Option ℕ)
    (hlen : p.face_encodings.length ≤ MAX_FACE_IMAGES)
    (hsep : p.face_encodings.Pairwise (fun a b => DUPLICATE_EPS2 < dist2 a b)) :
    (addFaceData p enc img bbox).face_encodings.length ≤ MAX_FACE_IMAGES ∧
    (addFaceData p enc img bbox).face_encodings.Pairwise
      (fun a b => DUPLICATE_EPS2 < dist2 a b) ∧
    ((p.face_encodings.any (fun e => dist2 enc e ≤ DUPLICATE_EPS2) = true ∨
        MAX_FACE_IMAGES ≤ p.face_encodings.length) →
      addFaceData p enc img bbox = p) := by
  by_cases h1 : MAX_FACE_IMAGES ≤ p.face_encodings.length
  · rw [addFaceData.eq_def, if_pos h1]
    exact ⟨hlen, hsep, fun _ => rfl⟩
  · by_cases h2 : p.face_encodings.any (fun e => dist2 enc e ≤ DUPLICATE_EPS2) = true
    · rw [addFaceData.eq_def, if_neg h1, if_pos h2]
      exact ⟨hlen, hsep, fun _ => rfl⟩
    · rw [addFaceData.eq_def, if_neg h1, if_neg h2]
      refine ⟨?_, ?_, ?_⟩
      · rw [update_mean_encoding_encodings]
        simp only [List.length_append, List.length_singleton]
        omega
      · rw [update_mean_encoding_encodings]
        dsimp only
        rw [List.pairwise_append]
        refine ⟨hsep, List.pairwise_singleton _ _, ?_⟩
        intro a ha b hb
        simp only [List.mem_singleton] at hb
        subst hb
        have := List.any_eq_false.mp (Bool.not_eq_true _ ▸ h2) a ha
        rw [dist2_comm]
        exact lt_of_not_le (fun hle => this (decide_eq_true hle))
      · intro hcase
        rcases hcase with hc | hc
        · exact absurd hc h2
        · exact absurd hc h1

/-- A sample person for the C9 witness: one stored fingerprint `[0]`. -/
def sampleP : Person :=
  { track_id := 7, face_encodings := [[0]], face_images := [5], face_boxes := [3]
    missed_frames := 0, name := none, mean_encoding := some [0], is_visible := true }

/-- Witness for C9 at the concrete person `sampleP` and encoding `[1]`. -/
theorem C9_witness :
    (addFaceData sampleP [1] 1 none).face_encodings.length ≤ MAX_FACE_IMAGES ∧
    (addFaceData sampleP [1] 1 none).face_encodings.Pairwise
      (fun a b => DUPLICATE_EPS2 < dist2 a b) ∧
    ((sampleP.face_encodings.any (fun e => dist2 [1] e ≤ DUPLICATE_EPS2) = true ∨
        MAX_FACE_IMAGES ≤ sampleP.face_encodings.length) →
      addFaceData sampleP [1] 1 none = sampleP) :=
  C9_add_face_data sampleP [1] 1 none
    (by simp [sampleP, MAX_FACE_IMAGES])
    (by simp [sampleP])

/-! ## The lost-implies-not-visible invariant (claim C6) -/

lemma update_mean_encoding_is_visible (p : Person) :
    (update_mean_encoding p).is_visible = p.is_visible := by
  unfold update_mean_encoding; split <;> rfl

lemma update_mean_encoding_track_id (p : Person) :
    (update_mean_encoding p).track_id = p.track_id := by
  unfold update_mean_encoding; split <;> rfl

lemma addFaceData_is_visible (p : Person) (enc : List ℚ) (img : ℕ)
    (bbox : Option ℕ) : (addFaceData p enc img bbox).is_visible = p.is_visible := by
  unfold addFaceData
  split
  · rfl
  · split
    · rfl
    · rw [update_mean_encoding_is_visible]

lemma addFaceData_track_id (p : Person) (enc : List ℚ) (img : ℕ)
    (bbox : Option ℕ) : (addFaceData p enc img bbox).track_id = p.track_id := by
  unfold addFaceData
  split
  · rfl
  · split
    · rfl
    · rw [update_mean_encoding_track_id]

/-- "No lost person is visible": the invariant of claim C6, as a proposition. -/
def LostNotVisible (s : RecognizerState) : Prop :=
  ∀ p ∈ s.lost_people, p.is_visible = false

/-- The invariant threaded through one tick: no lost person is visible, and
every *visible* tracked person's id has been recorded in
`current_frame_ids`. -/
def phaseInv (s : RecognizerState) (ids : List ℕ) : Prop :=
  LostNotVisible s ∧
  ∀ p ∈ s.tracked_people, p.is_visible = true → p.track_id ∈ ids

lemma updatePersonIn_phase (l : List Person) (pid : ℕ) (f : Person → Person)
    (ids : List ℕ)
    (hfv : ∀ p, (f p).is_visible = p.is_visible)
    (hfi : ∀ p, (f p).track_id = p.track_id)
    (hl : ∀ p ∈ l, p.is_visible = true → p.track_id ∈ ids) :
    ∀ q ∈ updatePersonIn l pid f, q.is_visible = true → q.track_id ∈ ids := by
  intro q hq
  unfold updatePersonIn at hq
  obtain ⟨p0, hp0, hq⟩ := List.mem_map.mp hq
  by_cases hid : p0.track_id = pid
  · rw [if_pos hid] at hq
    subst hq
    rw [hfv, hfi]
    exact hl p0 hp0
  · rw [if_neg hid] at hq
    subst hq
    exact hl p0 hp0

lemma updateExistingPerson_phaseInv (s : RecognizerState) (ids : List ℕ)
    (pid : ℕ) (enc : List ℚ) (img bbox : ℕ) (h : phaseInv s ids) :
    phaseInv (updateExistingPerson s pid enc img bbox) ids := by
  obtain ⟨hL, hT⟩ := h
  unfold updateExistingPerson
  dsimp only
  split
  · constructor
    · intro p hp
      exact hL p (List.mem_of_mem_filter hp)
    · apply updatePersonIn_phase
      · intro p; rw [addFaceData_is_visible]; rfl
      · intro p; rw [addFaceData_track_id]; rfl
      · intro p hp hvis
        rcases List.mem_append.mp hp with hp | hp
        · exact hT p hp hvis
        · exact absurd hvis (by rw [hL p (List.mem_of_mem_filter hp)]; simp)
  · constructor
    · exact hL
    · apply updatePersonIn_phase
      · intro p; rw [addFaceData_is_visible]; rfl
      · intro p; rw [addFaceData_track_id]; rfl
      · exact hT

lemma setVisible_phaseInv (s : RecognizerState) (ids : List ℕ) (pid : ℕ)
    (h : phaseInv s ids) : phaseInv (setVisible s pid) (ids ++ [pid]) := by
  obtain ⟨hL, hT⟩ := h
  constructor
  · exact hL
  · intro q hq hvis
    unfold setVisible updatePersonIn at hq
    obtain ⟨p0, hp0, hq⟩ := List.mem_map.mp hq
    by_cases hid : p0.track_id = pid
    · rw [if_pos hid] at hq
      subst hq
      simp [hid]
    · rw [if_neg hid] at hq
      subst hq
      exact List.mem_append_left _ (hT p0 hp0 hvis)

lemma processFace_phaseInv (s : RecognizerState) (ids : List ℕ)
    (enc : List ℚ) (img bbox : ℕ) (h : phaseInv s ids) :
    phaseInv (processFace s enc img bbox).1 ids := by
  unfold processFace
  rcases findBestMatch (s.tracked_people ++ s.lost_people) enc with ⟨bp, d⟩
  cases bp with
  | some p =>
      dsimp only
      split
      · exact updateExistingPerson_phaseInv s ids p.track_id enc img bbox h
      · exact h
  | none => exact h

lemma obsStep_phaseInv (acc : RecognizerState × List ℕ) (o : Observation)
    (h : phaseInv acc.1 acc.2) : phaseInv (obsStep acc o).1 (obsStep acc o).2 := by
  unfold obsStep
  have hpf := processFace_phaseInv acc.1 acc.2 o.encoding o.img o.bbox h
  rcases hf : processFace acc.1 o.encoding o.img o.bbox with ⟨st, pid?⟩
  rw [hf] at hpf
  cases pid? with
  | some pid => exact setVisible_phaseInv st acc.2 pid hpf
  | none => exact hpf

lemma foldl_obsStep_phaseInv (obs : List Observation) :
    ∀ acc : RecognizerState × List ℕ, phaseInv acc.1 acc.2 →
      phaseInv (obs.foldl obsStep acc).1 (obs.foldl obsStep acc).2 := by
  induction obs with
  | nil => intro acc h; exact h
  | cons o os ih =>
      intro acc h
      rw [List.foldl_cons]
      exact ih (obsStep acc o) (obsStep_phaseInv acc o h)

lemma createNewPerson_phaseInv (s : RecognizerState) (ids : List ℕ)
    (enc : List ℚ) (img bbox : ℕ) (h : phaseInv s ids) :
    phaseInv (createNewPerson s enc img bbox).1 ids := by
  obtain ⟨hL, hT⟩ := h
  constructor
  · exact hL
  · intro p hp hvis
    rcases List.mem_append.mp hp with hp | hp
    · exact hT p hp hvis
    · simp only [List.mem_singleton] at hp
      subst hp
      exact absurd hvis (by rw [addFaceData_is_visible]; simp [newPerson])

lemma candStep_phaseInv (st : RecognizerState) (kept : List Candidate)
    (promos : List (Candidate × Person)) (merges : List ℕ) (c : Candidate)
    (ids : List ℕ) (h : phaseInv st ids) :
    phaseInv (candStep (st, kept, promos, merges) c).1 ids := by
  unfold candStep
  dsimp only
  rcases findBestMatch (st.tracked_people ++ st.lost_people)
    ({ c with count := c.count + 1 } : Candidate).encoding with ⟨bp, d⟩
  cases bp with
  | some p =>
      dsimp only
      split
      · exact updateExistingPerson_phaseInv st ids p.track_id _ _ _ h
      · split
        · exact createNewPerson_phaseInv st ids _ _ _ h
        · exact h
  | none =>
      dsimp only
      split
      · exact createNewPerson_phaseInv st ids _ _ _ h
      · exact h

lemma foldl_candStep_phaseInv (l : List Candidate) (ids : List ℕ) :
    ∀ acc : RecognizerState × List Candidate × List (Candidate × Person) × List ℕ,
      phaseInv acc.1 ids → phaseInv (l.foldl candStep acc).1 ids := by
  induction l with
  | nil => intro acc h; exact h
  | cons c cs ih =>
      intro acc h
      rw [List.foldl_cons]
      obtain ⟨st, kept, promos, merges⟩ := acc
      exact ih _ (candStep_phaseInv st kept promos merges c ids h)

lemma processCandidates_phaseInv (s : RecognizerState) (ids : List ℕ)
    (h : phaseInv s ids) : phaseInv (processCandidates s).1 ids := by
  have hf := foldl_candStep_phaseInv s.candidate_faces ids (s, [], [], []) h
  obtain ⟨hL, hT⟩ := hf
  exact ⟨hL, hT⟩

lemma phaseInv_mono (s : RecognizerState) (ids ids' : List ℕ)
    (hsub : ∀ x ∈ ids, x ∈ ids') (h : phaseInv s ids) : phaseInv s ids' :=
  ⟨h.1, fun p hp hvis => hsub _ (h.2 p hp hvis)⟩

lemma foldl_utStep_lost (ids : List ℕ) (l : List Person) :
    ∀ acc : List Person × List Person,
      (∀ p ∈ acc.2, p.is_visible = false) →
      (∀ p ∈ l, p.is_visible = true → p.track_id ∈ ids) →
      ∀ p ∈ (l.foldl (utStep ids) acc).2, p.is_visible = false := by
  induction l with
  | nil => intro acc hacc _; exact hacc
  | cons p ps ih =>
      intro acc hacc hl
      rw [List.foldl_cons]
      refine ih (utStep ids acc p) ?_ (fun q hq => hl q (List.mem_cons_of_mem p hq))
      intro q hq
      unfold utStep at hq
      split at hq
      · exact hacc q hq
      · dsimp only at hq
        split at hq
        · rcases List.mem_append.mp hq with hq | hq
          · exact hacc q hq
          · simp only [List.mem_singleton] at hq
            subst hq
            dsimp only
            rename_i hcont _
            by_cases hvis : p.is_visible = true
            · exact absurd (hl p (List.mem_cons_self p ps) hvis)
                (by
                  intro hmem
                  exact hcont (List.elem_iff.mpr hmem))
            · exact Bool.not_eq_true _ ▸ hvis
        · exact hacc q hq

lemma updateTracking_lost (s : RecognizerState) (ids : List ℕ) :
    (updateTracking s ids).lost_people =
      (s.tracked_people.foldl (utStep ids) ([], s.lost_people)).2 := rfl

lemma updateTracking_lostInv (s : RecognizerState) (ids : List ℕ)
    (h : phaseInv s ids) : LostNotVisible (updateTracking s ids) := by
  intro p hp
  rw [updateTracking_lost] at hp
  exact foldl_utStep_lost ids s.tracked_people ([], s.lost_people) h.1 h.2 p hp

lemma markTrackedNotVisible_phaseInv (s : RecognizerState)
    (h : LostNotVisible s) : phaseInv (markTrackedNotVisible s) [] := by
  constructor
  · exact h
  · intro p hp hvis
    obtain ⟨p0, _, hp⟩ := List.mem_map.mp hp
    subst hp
    exact absurd hvis (by simp [markNotVisible])

lemma tick_preserves_lostInv (s : RecognizerState) (obs : List Observation)
    (h : LostNotVisible s) : LostNotVisible (tick s obs) := by
  rw [tick_eq]
  apply updateTracking_lostInv
  apply phaseInv_mono _ (processObservations (markTrackedNotVisible s) obs).2
  · intro x hx; exact List.mem_append_left _ hx
  · apply processCandidates_phaseInv
    exact foldl_obsStep_phaseInv obs (markTrackedNotVisible s, [])
      (markTrackedNotVisible_phaseInv s h)

/-- The C6 invariant, as an executable check over a state. -/
def lostInvariant (s : RecognizerState) : Bool :=
  s.lost_people.all (fun p => !p.is_visible)

lemma lostInvariant_iff (s : RecognizerState) :
    lostInvariant s = true ↔ LostNotVisible s := by
  unfold lostInvariant LostNotVisible
  rw [List.all_eq_true]
  constructor
  · intro h p hp
    have := h p hp
    simpa using this
  · intro h p hp
    simpa using h p hp

/-- Claim C6.  In every reachable state of the resolution engine — cold
start or a store pre-loaded from disk, followed by any sequence of ticks —
no person in the lost set is visible, even though the per-frame visibility
reset at the start of each tick touches only `tracked_people` and lost
identities remain matchable (and can be pulled back by a match, at which
point they leave the lost set before becoming visible). -/
theorem C6_lost_never_visible (s : RecognizerState) (h : Reachable s) :
    lostInvariant s = true := by
  rw [lostInvariant_iff]
  induction h with
  | init => intro p hp; exact absurd hp (List.not_mem_nil p)
  | load people n hload => intro p hp; exact absurd hp (List.not_mem_nil p)
  | tick s' obs _ ih => exact tick_preserves_lostInv s' obs ih

/-- Witness for C6: the invariant holds at the state reached by one tick
with one observation from the cold-start state. -/
theorem C6_witness :
    lostInvariant (tick initState [{ encoding := [0], img := 0, bbox := 0 }]) =
      true :=
  C6_lost_never_visible _ (Reachable.tick initState _ Reachable.init)

/-! ## The matcher's specification (claim C7) -/

/-- The adjusted (squared) distance `find_best_match` assigns to a person:
`none` when the person is skipped (`mean_encoding is None`). -/
def score (enc : List ℚ) (p : Person) : Option ℚ :=
  p.mean_encoding.map (fun m => adjust2 p.face_encodings.length (dist2 enc m))

lemma fbm_fold_le (enc : List ℚ) (l : List Person) :
    ∀ acc : Option Person × WithTop ℚ, (l.foldl (fbmStep enc) acc).2 ≤ acc.2 := by
  induction l with
  | nil => intro acc; exact le_refl _
  | cons p ps ih =>
      intro acc
      rw [List.foldl_cons]
      refine le_trans (ih _) ?_
      unfold fbmStep
      cases hm : p.mean_encoding with
      | none => exact le_refl _
      | some m =>
          dsimp only
          by_cases hlt :
            ((adjust2 p.face_encodings.length (dist2 enc m) : ℚ) : WithTop ℚ) < acc.2
          · rw [if_pos hlt]; exact le_of_lt hlt
          · rw [if_neg hlt]

lemma fbm_fold_min (enc : List ℚ) (l : List Person) :
    ∀ acc : Option Person × WithTop ℚ, ∀ q ∈ l, ∀ sq : ℚ, score enc q = some sq →
      (l.foldl (fbmStep enc) acc).2 ≤ (sq : WithTop ℚ) := by
  induction l with
  | nil => intro acc q hq; exact absurd hq (List.not_mem_nil q)
  | cons p ps ih =>
      intro acc q hq sq hsq
      rw [List.foldl_cons]
      rcases List.mem_cons.mp hq with rfl | hq
      · refine le_trans (fbm_fold_le enc ps _) ?_
        obtain ⟨m, hm, hadj⟩ := Option.map_eq_some'.mp hsq
        unfold fbmStep
        rw [hm]
        dsimp only
        by_cases hlt :
          ((adjust2 q.face_encodings.length (dist2 enc m) : ℚ) : WithTop ℚ) < acc.2
        · rw [if_pos hlt]; rw [hadj]
        · rw [if_neg hlt]
          rw [← hadj]
          exact le_of_not_lt hlt
      · exact ih _ q hq sq hsq

lemma fbm_fold_attain (enc : List ℚ) (l : List Person) :
    ∀ acc : Option Person × WithTop ℚ,
      l.foldl (fbmStep enc) acc = acc ∨
      ∃ p ∈ l, ∃ sp : ℚ, score enc p = some sp ∧
        l.foldl (fbmStep enc) acc = (some p, (sp : WithTop ℚ)) := by
  induction l with
  | nil => intro acc; left; rfl
  | cons p ps ih =>
      intro acc
      rw [List.foldl_cons]
      rcases ih (fbmStep enc acc p) with h | ⟨q, hq, sq, hsq, h⟩
      · rw [h]
        unfold fbmStep
        cases hm : p.mean_encoding with
        | none => left; rfl
        | some m =>
            dsimp only
            by_cases hlt :
              ((adjust2 p.face_encodings.length (dist2 enc m) : ℚ) : WithTop ℚ) < acc.2
            · right
              exact ⟨p, List.mem_cons_self p ps,
                adjust2 p.face_encodings.length (dist2 enc m),
                by simp [score, hm], by rw [if_pos hlt]⟩
            · left; rw [if_neg hlt]
      · right
        exact ⟨q, List.mem_cons_of_mem p hq, sq, hsq, h⟩

/-- Claim C7.  `find_best_match` scans the whole list `tracked + lost`,
skips people with no stored fingerprints (`mean_encoding is None`, equivalent
under the store invariant), scores the rest by the (squared) Euclidean
distance to the mean fingerprint adjusted by `0.95²` (≥ 3 fingerprints) or
`1.05²` (exactly 1), returns a person attaining the minimum adjusted
distance, and returns `(none, ⊤)` (Python `(None, float("inf"))`) iff no
person has fingerprints.  The function is pure by construction — it returns
no modified store. -/
theorem C7_find_best_match (people : List Person) (enc : List ℚ)
    (hwf : ∀ p ∈ people, (p.mean_encoding = none ↔ p.face_encodings = [])) :
    (∀ q ∈ people, ∀ sq : ℚ, score enc q = some sq →
      (findBestMatch people enc).2 ≤ (sq : WithTop ℚ)) ∧
    (∀ p : Person, (findBestMatch people enc).1 = some p →
      p ∈ people ∧ p.face_encodings ≠ [] ∧
      ∃ sp : ℚ, score enc p = some sp ∧
        (findBestMatch people enc).2 = (sp : WithTop ℚ)) ∧
    ((findBestMatch people enc).1 = none →
      (∀ p ∈ people, p.face_encodings = []) ∧ (findBestMatch people enc).2 = ⊤) ∧
    ((∀ p ∈ people, p.face_encodings = []) → findBestMatch people enc = (none, ⊤)) := by
  refine ⟨?_, ?_, ?_, ?_⟩
  · intro q hq sq hsq
    exact fbm_fold_min enc people (none, ⊤) q hq sq hsq
  · intro p hp
    rcases fbm_fold_attain enc people (none, ⊤) with h | ⟨q, hq, sq, hsq, h⟩
    · rw [show findBestMatch people enc = people.foldl (fbmStep enc) (none, ⊤) from rfl,
        h] at hp
      exact absurd hp (by simp)
    · have hq' : findBestMatch people enc = (some q, (sq : WithTop ℚ)) := h
      rw [hq'] at hp
      obtain rfl : q = p := by simpa using hp
      refine ⟨hq, ?_, sq, hsq, by rw [hq']⟩
      intro hemp
      obtain ⟨m, hm, _⟩ := Option.map_eq_some'.mp hsq
      rw [(hwf q hq).mpr hemp] at hm
      exact Option.noConfusion hm
  · intro hnone
    rcases fbm_fold_attain enc people (none, ⊤) with h | ⟨q, hq, sq, hsq, h⟩
    · have h' : findBestMatch people enc = (none, ⊤) := h
      refine ⟨?_, by rw [h']⟩
      intro p hp
      by_contra hemp
      have hm : p.mean_encoding ≠ none := fun hx => hemp ((hwf p hp).mp hx)
      obtain ⟨m, hm'⟩ := Option.ne_none_iff_exists'.mp hm
      have hmin := fbm_fold_min enc people (none, ⊤) p hp
        (adjust2 p.face_encodings.length (dist2 enc m)) (by simp [score, hm'])
      rw [show people.foldl (fbmStep enc) (none, ⊤) = findBestMatch people enc
        from rfl, h'] at hmin
      exact absurd hmin (by simp)
    · have h' : findBestMatch people enc = (some q, (sq : WithTop ℚ)) := h
      rw [h'] at hnone
      exact Option.noConfusion hnone
  · intro hall
    rcases fbm_fold_attain enc people (none, ⊤) with h | ⟨q, hq, sq, hsq, h⟩
    · exact h
    · obtain ⟨m, hm, _⟩ := Option.map_eq_some'.mp hsq
      rw [(hwf q hq).mpr (hall q hq)] at hm
      exact Option.noConfusion hm

/-- A two-person store for the C7 witness: `sampleQ` has no fingerprints and
must be skipped; `sampleP` carries fingerprint `[0]`. -/
def sampleQ : Person :=
  { track_id := 8, face_encodings := [], face_images := [], face_boxes := []
    missed_frames := 0, name := none, mean_encoding := none, is_visible := false }

/-- Witness for C7 on the concrete store `[sampleQ, sampleP]` and query
`[1]`. -/
theorem C7_witness :
    (∀ q ∈ [sampleQ, sampleP], ∀ sq : ℚ, score [1] q = some sq →
      (findBestMatch [sampleQ, sampleP] [1]).2 ≤ (sq : WithTop ℚ)) ∧
    (∀ p : Person, (findBestMatch [sampleQ, sampleP] [1]).1 = some p →
      p ∈ [sampleQ, sampleP] ∧ p.face_encodings ≠ [] ∧
      ∃ sp : ℚ, score [1] p = some sp ∧
        (findBestMatch [sampleQ, sampleP] [1]).2 = (sp : WithTop ℚ)) ∧
    ((findBestMatch [sampleQ, sampleP] [1]).1 = none →
      (∀ p ∈ [sampleQ, sampleP], p.face_encodings = []) ∧
      (findBestMatch [sampleQ, sampleP] [1]).2 = ⊤) ∧
    ((∀ p ∈ [sampleQ, sampleP], p.face_encodings = []) →
      findBestMatch [sampleQ, sampleP] [1] = (none, ⊤)) :=
  C7_find_best_match [sampleQ, sampleP] [1]
    (by
      intro p hp
      simp only [List.mem_cons, List.not_mem_nil, or_false] at hp
      rcases hp with rfl | rfl <;> simp [sampleQ, sampleP])

/-! ## Plugin-executor claims (C1, C2) -/

/-- A plugin whose `process_person` raises on every call. -/
def plRaise : Plugin :=
  { name := "boom", update_interval_ms := 0, last_update := 0, enabled := true
    process := fun _ => Except.error "kaboom" }

/-- A plugin whose `process_person` succeeds, returning the person id. -/
def plOk : Plugin :=
  { name := "good", update_interval_ms := 0, last_update := 0, enabled := true
    process := fun pid => Except.ok pid }

/-- Claim C1 (code bug).  When a plugin raises for a visible person, the
executor does catch the exception, record an error entry for that
`(identity, plugin)` pair, and continue with the remaining pairs of the pass
(the ghost log shows both plugins executed and the later plugin's result is
stored).  But the recorded error dict has no `"result"` key, and
`get_results_for_person` — called during frame annotation — reads
`result["result"]` unconditionally, so reading the results back raises
`KeyError`: the exception does escape into the tick loop after all. -/
theorem C1_code_bug :
    (processPeople { plugins := [plRaise, plOk], results := [] }
        [{ track_id := 1, is_visible := true }] 1000).1.results =
      [(resultKey "boom" 1,
        { person_id := 1, plugin := "boom", result := none
          error := some "kaboom", timestamp := 1000 }),
       (resultKey "good" 1,
        { person_id := 1, plugin := "good", result := some 1
          error := none, timestamp := 1000 })] ∧
    (processPeople { plugins := [plRaise, plOk], results := [] }
        [{ track_id := 1, is_visible := true }] 1000).2 =
      [("boom", 1), ("good", 1)] ∧
    getResultsForPerson
      (processPeople { plugins := [plRaise, plOk], results := [] }
        [{ track_id := 1, is_visible := true }] 1000).1.results 1 =
      Except.error "KeyError: result" :=
  ⟨rfl, rfl, rfl⟩

/-- A synchronous plugin with a 1000 ms interval for the C2 counterexample. -/
def plTimer : Plugin :=
  { name := "p", update_interval_ms := 1000, last_update := 0, enabled := true
    process := fun pid => Except.ok pid }

/-- Claim C2, counterexample.  One enabled plugin with interval 1000 ms and
`last_update = 0`; two visible identities 1 and 2; `now = 1000`.  Under the
claim, the pair `(2, p)` is due (no run was ever recorded for identity 2, so
`now - last_run[2] = 1000 ≥ 1000`), yet the pass runs the plugin only for
identity 1: `should_update` reads the *single* per-plugin `last_update`,
which the run for identity 1 has just advanced to `now`, so identity 2 is
skipped — timers are shared across identities, not independent. -/
theorem C2_counterexample :
    shouldUpdate plTimer 1000 = true ∧
    (processPeople { plugins := [plTimer], results := [] }
        [{ track_id := 1, is_visible := true },
         { track_id := 2, is_visible := true }] 1000).2 = [("p", 1)] ∧
    ("p", 2) ∉ (processPeople { plugins := [plTimer], results := [] }
        [{ track_id := 1, is_visible := true },
         { track_id := 2, is_visible := true }] 1000).2 := by
  refine ⟨rfl, rfl, ?_⟩
  intro hmem
  rw [show (processPeople { plugins := [plTimer], results := [] }
      [{ track_id := 1, is_visible := true },
       { track_id := 2, is_visible := true }] 1000).2 = [("p", 1)] from rfl] at hmem
  simp at hmem

lemma shouldUpdate_after_run (pl : Plugin) (now : ℤ)
    (hpos : 0 < pl.update_interval_ms) :
    shouldUpdate (updateTimestamp pl now) now = false := by
  unfold shouldUpdate updateTimestamp
  cases hE : pl.enabled with
  | false => simp [hE]
  | true =>
      simp only [hE, Bool.not_true, Bool.false_eq_true, if_false]
      simp only [sub_self]
      exact decide_eq_false (by omega)

/-- Claim C2, amended.  The scheduler keeps a *single* `last_update` per
plugin, shared by all identities: (1) `should_update` is true iff the plugin
is enabled and `now - last_update ≥ interval`; (2) `disable`/`enable` do not
touch `last_update` (the timer does not advance while disabled, so once
re-enabled the plugin is due as soon as `now - last_update ≥ interval`), and
a disabled plugin is never due; (3) consequently timers are *not*
per-identity: in a pass over two visible identities with one due plugin with
positive interval, a successful run for the first identity advances the
shared timer to `now` and the plugin is skipped for the second identity —
only the first visible identity is processed. -/
theorem C2_amended (pl : Plugin) (now : ℤ) (pid1 pid2 r0 : ℕ)
    (res : List (String × Entry))
    (hdue : shouldUpdate pl now = true)
    (hok : pl.process pid1 = Except.ok r0)
    (hpos : 0 < pl.update_interval_ms) :
    (shouldUpdate pl now = true ↔
      (pl.enabled = true ∧ pl.update_interval_ms ≤ now - pl.last_update)) ∧
    (pluginDisable pl).last_update = pl.last_update ∧
    (pluginEnable pl).last_update = pl.last_update ∧
    shouldUpdate (pluginDisable pl) now = false ∧
    (processPeople { plugins := [pl], results := res }
        [{ track_id := pid1, is_visible := true },
         { track_id := pid2, is_visible := true }] now).2 = [(pl.name, pid1)] := by
  refine ⟨?_, rfl, rfl, ?_, ?_⟩
  · unfold shouldUpdate
    cases hE : pl.enabled with
    | false => simp [hE]
    | true => simp [hE]
  · unfold shouldUpdate pluginDisable
    simp
  · simp only [processPeople, List.foldl_cons, List.foldl_nil, Bool.not_true,
      Bool.false_eq_true, if_false]
    rw [show (List.range ([pl] : List Plugin).length : List ℕ) = [0] from rfl]
    simp only [List.foldl_cons, List.foldl_nil]
    simp only [List.getElem?_cons_zero]
    simp only [hdue, hok]
    rw [show ([pl].set 0 (updateTimestamp pl now)) = [updateTimestamp pl now] from rfl]
    simp only [if_true]
    rw [show (List.range ([updateTimestamp pl now] : List Plugin).length : List ℕ) = [0]
      from rfl]
    simp only [List.foldl_cons, List.foldl_nil, List.getElem?_cons_zero]
    rw [shouldUpdate_after_run pl now hpos]
    simp

/-- Witness for C2's amended theorem at the concrete plugin `plTimer`,
identities 1, 2, `now = 1000`. -/
theorem C2_witness :
    (shouldUpdate plTimer 1000 = true ↔
      (plTimer.enabled = true ∧
        plTimer.update_interval_ms ≤ 1000 - plTimer.last_update)) ∧
    (pluginDisable plTimer).last_update = plTimer.last_update ∧
    (pluginEnable plTimer).last_update = plTimer.last_update ∧
    shouldUpdate (pluginDisable plTimer) 1000 = false ∧
    (processPeople { plugins := [plTimer], results := [] }
        [{ track_id := 1, is_visible := true },
         { track_id := 2, is_visible := true }] 1000).2 = [(plTimer.name, 1)] :=
  C2_amended plTimer 1000 1 2 1 [] rfl rfl (by norm_num [plTimer])

/-! ## Result-aggregator claims (C10) -/

lemma append_key_ne (s t : String) : s ++ "_" ++ t ≠ s := by
  intro h
  have hlen := congrArg String.length h
  rw [String.length_append, String.length_append] at hlen
  have : String.length "_" = 1 := rfl
  omega

/-- A generic fold fact: steps that ignore elements failing `p` let the fold
restrict to the filtered list. -/
lemma foldl_filter_skip {α β : Type} (p : β → Bool) (step : α → β → α)
    (h : ∀ acc b, p b = false → step acc b = acc) :
    ∀ (l : List β) (acc : α), l.foldl step acc = (l.filter p).foldl step acc := by
  intro l
  induction l with
  | nil => intro acc; rfl
  | cons b t ih =>
      intro acc
      cases hb : p b with
      | true => rw [List.foldl_cons, List.filter_cons_of_pos hb, List.foldl_cons, ih]
      | false => rw [List.foldl_cons, h acc b hb, List.filter_cons_of_neg (by simp [hb]), ih]

lemma grfp_step_skip (n : String) (acc : Except String (List (ℕ × ℕ)))
    (kv : String × Entry) (hkv : (decide (kv.2.plugin = n)) = false) :
    (fun (acc : Except String (List (ℕ × ℕ))) (kv : String × Entry) =>
      match acc with
      | Except.error e => Except.error e
      | Except.ok m =>
          if kv.2.plugin = n then
            match kv.2.result with
            | some r => Except.ok (dictInsertI m kv.2.person_id r)
            | none => Except.error "KeyError: result"
          else Except.ok m) acc kv = acc := by
  cases acc with
  | error e => rfl
  | ok m =>
      dsimp only
      rw [if_neg (of_decide_eq_false hkv)]

lemma grfp_eq_filter (results : List (String × Entry)) (n : String) :
    getResultsForPlugin results n =
      getResultsForPlugin (results.filter (fun kv => kv.2.plugin = n)) n := by
  unfold getResultsForPlugin
  exact foldl_filter_skip (fun kv => decide (kv.2.plugin = n)) _
    (fun acc kv h => grfp_step_skip n acc kv h) results (Except.ok [])

/-- Claim C10.  For any results store whose keys are well formed (built by
`process_people`, hence `key = plugin ++ "_" ++ person_id`):
unregistering a plugin leaves every entry that plugin recorded untouched
(such an entry's key `name ++ "_" ++ id` can never equal the bare `name`
that `unregister_plugin` deletes), so `get_results_for_plugin` returns
exactly what it returned before; when no key equals the bare plugin name
(the normal case) the whole store is untouched and `get_results_for_person`
is unchanged for every identity; only `clear_old_results` removes entries,
and exactly those older than `max_age`. -/
theorem C10_unregister_keeps_results (st : ManagerState) (pluginName : String)
    (hwf : ∀ kv ∈ st.results,
      kv.1 = kv.2.plugin ++ "_" ++ toString kv.2.person_id) :
    (unregisterPlugin st pluginName).results.filter
        (fun kv => kv.2.plugin = pluginName) =
      st.results.filter (fun kv => kv.2.plugin = pluginName) ∧
    getResultsForPlugin (unregisterPlugin st pluginName).results pluginName =
      getResultsForPlugin st.results pluginName ∧
    ((∀ kv ∈ st.results, kv.1 ≠ pluginName) →
      (unregisterPlugin st pluginName).results = st.results ∧
      ∀ pid, getResultsForPerson (unregisterPlugin st pluginName).results pid =
        getResultsForPerson st.results pid) ∧
    (∀ now maxAge : ℤ, (clearOldResults st now maxAge).results =
      st.results.filter (fun kv => now - kv.2.timestamp < maxAge)) := by
  have hfilter : (unregisterPlugin st pluginName).results.filter
      (fun kv => kv.2.plugin = pluginName) =
      st.results.filter (fun kv => kv.2.plugin = pluginName) := by
    unfold unregisterPlugin
    dsimp only
    split
    · rw [List.filter_filter]
      apply List.filter_congr
      intro kv hkv
      by_cases hp : kv.2.plugin = pluginName
      · have hk : kv.1 ≠ pluginName := by
          rw [hwf kv hkv, hp]
          exact append_key_ne pluginName (toString kv.2.person_id)
        simp [hp, hk]
      · simp [hp]
    · rfl
  refine ⟨hfilter, ?_, ?_, fun now maxAge => rfl⟩
  · rw [grfp_eq_filter (unregisterPlugin st pluginName).results pluginName,
      grfp_eq_filter st.results pluginName, hfilter]
  · intro hnk
    have hres : (unregisterPlugin st pluginName).results = st.results := by
      unfold unregisterPlugin
      dsimp only
      rw [if_neg]
      intro hany
      obtain ⟨kv, hkv, hkey⟩ := List.any_eq_true.mp hany
      exact hnk kv hkv (of_decide_eq_true hkey)
    exact ⟨hres, fun pid => by rw [hres]⟩

/-- A concrete well-formed store for the C10 witness: one result recorded by
plugin `em` for identity 1. -/
def sampleStore : ManagerState :=
  { plugins := []
    results := [("em_1",
      { person_id := 1, plugin := "em", result := some 4
        error := none, timestamp := 0 })] }

/-- Witness for C10 at the concrete store `sampleStore`, unregistering the
very plugin `em` that recorded the stored result. -/
theorem C10_witness :
    (unregisterPlugin sampleStore "em").results.filter
        (fun kv => kv.2.plugin = "em") =
      sampleStore.results.filter (fun kv => kv.2.plugin = "em") ∧
    getResultsForPlugin (unregisterPlugin sampleStore "em").results "em" =
      getResultsForPlugin sampleStore.results "em" ∧
    ((∀ kv ∈ sampleStore.results, kv.1 ≠ "em") →
      (unregisterPlugin sampleStore "em").results = sampleStore.results ∧
      ∀ pid, getResultsForPerson (unregisterPlugin sampleStore "em").results pid =
        getResultsForPerson sampleStore.results pid) ∧
    (∀ now maxAge : ℤ, (clearOldResults sampleStore now maxAge).results =
      sampleStore.results.filter (fun kv => now - kv.2.timestamp < maxAge)) :=
  C10_unregister_keeps_results sampleStore "em" (by
    intro kv hkv
    simp only [sampleStore, List.mem_singleton] at hkv
    subst hkv
    rfl)

/-! ## The asynchronous SmolVLM plugin (claim C5) -/

lemma smolLookup_complete (s : SmolState) (pid : ℕ) (o : Except String String) :
    ∀ req : PendingReq, smolLookup s pid = some req →
      smolLookup (smolComplete s pid o) pid =
        some { req with
          last_result :=
            match o with
            | Except.ok d => SRes.success d
            | Except.error e => SRes.failure e } := by
  induction s with
  | nil => intro req h; exact absurd h (by simp [smolLookup])
  | cons kv t ih =>
      intro req h
      by_cases hk : kv.1 = pid
      · rw [smolLookup, List.find?_cons_of_pos _ (by simp [hk])] at h
        simp only [Option.map_some'] at h
        rw [smolComplete.eq_def, List.map_cons, if_pos hk, smolLookup,
          List.find?_cons_of_pos _ (by simp [hk])]
        obtain rfl : kv.2 = req := Option.some.inj h
        rfl
      · rw [smolLookup, List.find?_cons_of_neg _ (by simp [hk])] at h
        rw [smolComplete.eq_def, List.map_cons, if_neg hk, smolLookup,
          List.find?_cons_of_neg _ (by simp [hk])]
        exact ih req h

lemma smolLookup_cleanup (s : SmolState) (pid : ℕ) :
    smolLookup (smolCleanup s pid) pid = none := by
  unfold smolLookup smolCleanup
  rw [List.find?_eq_none.mpr]
  · rfl
  · intro kv hkv
    have := List.of_mem_filter hkv
    simp only [decide_eq_true_eq] at this ⊢
    exact this

/-- Claim C5, counterexample.  First call for identity 1 spawns a background
request; the request completes with a timeout error (the entry stays — the
`finally` block only schedules a cleanup 30 seconds out); the next due call
(interval 5000 ms later, well inside the 30 s window) returns the cached
error result and spawns *nothing*: the pair does not become eligible for a
new attempt on the next due tick, only after the delayed cleanup. -/
theorem C5_counterexample :
    (smolProcessBody [] 1 100).2.2 = true ∧
    (smolProcessBody
        (smolComplete (smolProcessBody [] 1 100).1 1 (Except.error "timeout"))
        1 5100).2.2 = false ∧
    (smolProcessBody
        (smolComplete (smolProcessBody [] 1 100).1 1 (Except.error "timeout"))
        1 5100).2.1 = SRes.failure "timeout" ∧
    (smolProcessBody
        (smolComplete (smolProcessBody [] 1 100).1 1 (Except.error "timeout"))
        1 5100).1 =
      smolComplete (smolProcessBody [] 1 100).1 1 (Except.error "timeout") :=
  ⟨rfl, rfl, rfl, rfl⟩

/-- Claim C5, amended.  At most one background request per
`(identity, plugin)` pair is indeed outstanding: while an entry for the
identity exists in `pending_requests`, `process_body` spawns nothing,
changes nothing, and returns the entry's `last_result` (so a second `Run`
while the first is in flight is a no-op returning the Pending/last-known
result).  But after the request completes with a timeout or transport
error, the entry *remains* with the error result: subsequent calls still
spawn nothing and return the cached error, and the pair becomes eligible
for a new attempt only once the delayed (≈30 s) `_cleanup_request` removes
the entry — not on the next due tick. -/
theorem C5_amended (s : SmolState) (pid : ℕ) (now : ℤ) (req : PendingReq)
    (h : smolLookup s pid = some req) :
    smolProcessBody s pid now = (s, req.last_result, false) ∧
    (∀ e, smolProcessBody (smolComplete s pid (Except.error e)) pid now =
      (smolComplete s pid (Except.error e), SRes.failure e, false)) ∧
    (smolProcessBody (smolCleanup s pid) pid now).2.2 = true := by
  refine ⟨?_, ?_, ?_⟩
  · unfold smolProcessBody
    rw [h]
  · intro e
    have h2 := smolLookup_complete s pid (Except.error e) req h
    unfold smolProcessBody
    rw [h2]
  · have h3 := smolLookup_cleanup s pid
    unfold smolProcessBody
    rw [h3]

/-- Witness for C5's amended theorem at a concrete one-entry state. -/
theorem C5_witness :
    smolProcessBody [(1, { request_id := "x", last_result := SRes.pendingRes })]
        1 5 =
      ([(1, { request_id := "x", last_result := SRes.pendingRes })],
        SRes.pendingRes, false) ∧
    (∀ e, smolProcessBody
        (smolComplete [(1, { request_id := "x", last_result := SRes.pendingRes })]
          1 (Except.error e)) 1 5 =
      (smolComplete [(1, { request_id := "x", last_result := SRes.pendingRes })]
        1 (Except.error e), SRes.failure e, false)) ∧
    (smolProcessBody
        (smolCleanup [(1, { request_id := "x", last_result := SRes.pendingRes })] 1)
        1 5).2.2 = true :=
  C5_amended [(1, { request_id := "x", last_result := SRes.pendingRes })] 1 5
    { request_id := "x", last_result := SRes.pendingRes } rfl

end Tracker
